import Mathlib

/-!
Shallow embedding of the Mondaq analytics dashboard pipeline
(`mondaq_dashboard_app.py`): the data model (reader / article / author
tables with nullable cells), the article-to-author left join, the sidebar
filters, the derived features (topic classification from titles, stopword
tokenization) and the top-N aggregations, together with theorems checking
the specified properties of each stage.

Modelling conventions:
* a dataframe is a `List` of row structures; a nullable cell is an `Option`;
* timestamps are `Int` (only their linear order matters to the code);
* pandas comparisons against a null (`NaN`/`NaT`) are `false`, as in pandas;
* `sort_values(..., ascending=False)` is modelled after pandas `nargsort`:
  the non-null block is argsorted descending (numpy introsort under the
  default `kind='quicksort'`, whose order among equal keys is
  implementation-defined — it is unstable once a partition exceeds the
  ≤ 16-element insertion-sort base case), and the null block is appended
  at the end (`na_position='last'`).  The embedding realizes the non-null
  block with `List.insertionSort`; of that choice, only facts invariant
  under permuting equal-keyed rows are claimed as program properties,
  together with evaluations of inputs small enough to sit entirely in
  introsort's insertion-sort regime.
-/

namespace Mondaq

/-- One row of `Reader-MondaqAnalytics.csv` after loading: every cell may be
missing, `Last Access Date` is parsed with `errors='coerce'` so it is null
on parse failure. -/
structure ReaderRow where
  email : Option String
  country : Option String
  industry : Option String
  position : Option String
  activityDesc : Option String
  readsCount : Option Int
  lastAccess : Option Int
deriving DecidableEq

/-- One row of `Article-MondaqAnalytics.csv` after loading; `Date` is parsed
with `errors='coerce'`. -/
structure ArticleRow where
  title : Option String
  date : Option Int
  authorId : Option Int
  readsCount : Option Int
deriving DecidableEq

/-- One row of `Author-MondaqAnalytics.csv` after loading. -/
structure AuthorRow where
  authorId : Option Int
  authorName : Option String
deriving DecidableEq

/-- One row of `merged_df`: the article fields plus the author-side
`Author Name` (null when the article's `Author Id` found no match).
`readsCount` is the renamed `Article Reads` column. -/
structure JoinedRow where
  title : Option String
  date : Option Int
  authorId : Option Int
  readsCount : Option Int
  authorName : Option String
deriving DecidableEq

/-! ### String helpers (Python `str.lower`, `in`, `str.split`) -/

/-- Python `str.lower()` on the character list (ASCII case folding, as
`Char.toLower` performs; the titles in the data are ASCII). -/
def strLower (s : String) : String :=
  ⟨s.data.map Char.toLower⟩

/-- `startsWithL n h` : the list `n` is an initial segment of `h`. -/
def startsWithL : List Char → List Char → Bool
  | [], _ => true
  | _ :: _, [] => false
  | a :: as, b :: bs => a == b && startsWithL as bs

/-- `hasSubstr n h` : the list `n` occurs contiguously inside `h`
(Python's `n in h` on strings). -/
def hasSubstr (needle : List Char) : List Char → Bool
  | [] => startsWithL needle []
  | c :: cs => startsWithL needle (c :: cs) || hasSubstr needle cs

/-- Python `needle in hay` for strings. -/
def substrB (needle hay : String) : Bool :=
  hasSubstr needle.data hay.data

/-- Python `str.split()` (no argument): split on runs of whitespace,
dropping empty fragments.  Implemented as a right fold over the characters:
a whitespace character starts a fresh group, any other character is pushed
onto the current group; empty groups (from leading / trailing / repeated
whitespace) are dropped at the end. -/
def splitWsStep (c : Char) (groups : List (List Char)) : List (List Char) :=
  if c.isWhitespace then [] :: groups
  else
    match groups with
    | [] => [[c]]
    | g :: gs => (c :: g) :: gs

/-- Python `s.split()` for a string `s`. -/
def splitWs (s : String) : List String :=
  ((s.data.foldr splitWsStep []).filter (fun g => !g.isEmpty)).map
    (fun g => ⟨g⟩)

/-! ### Topic classifier (`match_topic`, lines 93–99) -/

/-- The fixed ordered keyword list `topic_keywords` of the source. -/
def topic_keywords : List String :=
  ["tax", "esg", "mergers", "acquisition", "privacy", "compliance",
   "digital", "technology", "employment"]

/-- The `for word in topic_keywords` loop of `match_topic`: return the first
keyword that occurs in the (already lower-cased) title, else `"other"`. -/
def matchTopicGo (lowered : String) : List String → String
  | [] => "other"
  | w :: ws => if substrB w lowered then w else matchTopicGo lowered ws

/-- `match_topic(title)` of the source: lower-case the title and scan the
fixed keyword list in order. -/
def match_topic (title : String) : String :=
  matchTopicGo (strLower title) topic_keywords

/-- Line 101: `topic_df['Title'].fillna('').apply(match_topic)` — a null
title is replaced by the empty string before classification. -/
def assignTopic (title : Option String) : String :=
  match_topic (title.getD "")

/-- The scan returns either a member of the keyword list or `"other"`, and
it is exactly `List.find?` of the substring test, defaulted to `"other"`. -/
theorem matchTopicGo_spec (lowered : String) (ks : List String) :
    (matchTopicGo lowered ks ∈ ks ∨ matchTopicGo lowered ks = "other") ∧
      matchTopicGo lowered ks =
        ((ks.find? (fun w => substrB w lowered)).getD "other") := by
  induction ks with
  | nil => exact ⟨Or.inr rfl, rfl⟩
  | cons w ws ih =>
    by_cases h : substrB w lowered
    · refine ⟨Or.inl ?_, ?_⟩
      · simp [matchTopicGo, h]
      · simp [matchTopicGo, List.find?, h]
    · have h' : substrB w lowered = false := by
        simpa using h
      constructor
      · rcases ih.1 with hm | ho
        · exact Or.inl (by simp only [matchTopicGo, h', Bool.false_eq_true,
            if_false, List.mem_cons]; exact Or.inr hm)
        · exact Or.inr (by simp [matchTopicGo, h', ho])
      · simp [matchTopicGo, List.find?, h', ih.2]

/-- Claim C2: `match_topic` lower-cases the title and returns the first
keyword of the fixed ordered list that occurs as a substring, `"other"`
when none occurs; the result is always a keyword or `"other"`, and
`match_topic "Tax and ESG compliance update" = "tax"`. -/
theorem match_topic_first_keyword (title : String) :
    (match_topic title ∈ topic_keywords ∨ match_topic title = "other") ∧
      match_topic title =
        ((topic_keywords.find? (fun w => substrB w (strLower title))).getD
          "other") ∧
      match_topic "Tax and ESG compliance update" = "tax" := by
  refine ⟨(matchTopicGo_spec (strLower title) topic_keywords).1,
    (matchTopicGo_spec (strLower title) topic_keywords).2, ?_⟩
  decide

/-! ### Joiner (`load_data`, lines 30–31) -/

/-- Build one output row of the merge from an article row and the matched
author name (`none` when the article's `Author Id` found no author row):
the article fields are kept, `Reads_article` is renamed `Article Reads`
(our `readsCount`) and the author side contributes `Author Name`. -/
def mkJoined (a : ArticleRow) (name : Option String) : JoinedRow :=
  ⟨a.title, a.date, a.authorId, a.readsCount, name⟩

/-- The rows `article_df.merge(author_df, on='Author Id', how='left')`
produces for a single left row: one row per matching author row, in author
order, or a single row with null `Author Name` when nothing matches. -/
def joinOne (a : ArticleRow) (authors : List AuthorRow) : List JoinedRow :=
  match authors.filter (fun au => au.authorId == a.authorId) with
  | [] => [mkJoined a none]
  | ms => ms.map (fun au => mkJoined a au.authorName)

/-- `merged_df` of `load_data`: the left outer join of the article table
with the author table on `Author Id`, left rows kept in order. -/
def leftJoin : List ArticleRow → List AuthorRow → List JoinedRow
  | [], _ => []
  | a :: as, authors => joinOne a authors ++ leftJoin as authors

/-- In a table whose `authorId` column has no duplicates, filtering by an
equality test on `authorId` keeps at most one row. -/
theorem filter_authorId_length_le_one (authors : List AuthorRow)
    (k : Option Int) (h : (authors.map (fun au => au.authorId)).Nodup) :
    (authors.filter (fun au => au.authorId == k)).length ≤ 1 := by
  induction authors with
  | nil => simp
  | cons a as ih =>
    rw [List.map_cons, List.nodup_cons] at h
    by_cases ha : a.authorId == k
    · have hk : a.authorId = k := by simpa using ha
      have hrest : (as.filter (fun au => au.authorId == k)) = [] := by
        rw [List.filter_eq_nil_iff]
        intro au hau hkey
        exact h.1 (by
          have : au.authorId = k := by simpa using hkey
          rw [← hk] at this
          exact this ▸ List.mem_map_of_mem (fun x => x.authorId) hau)
      simp [List.filter_cons, ha, hrest]
    · simpa [List.filter_cons, ha] using ih h.2

/-- With unique author ids, each article contributes exactly one joined
row, carrying that article's fields. -/
theorem joinOne_eq_single (a : ArticleRow) (authors : List AuthorRow)
    (h : (authors.map (fun au => au.authorId)).Nodup) :
    ∃ name, joinOne a authors = [mkJoined a name] := by
  have hlen := filter_authorId_length_le_one authors a.authorId h
  rcases hfil : authors.filter (fun au => au.authorId == a.authorId) with
    _ | ⟨m, ms⟩
  · exact ⟨none, by unfold joinOne; rw [hfil]⟩
  · rw [hfil] at hlen
    rcases ms with _ | ⟨m', ms'⟩
    · exact ⟨m.authorName, by unfold joinOne; rw [hfil]; rfl⟩
    · simp at hlen

/-- Claim C1: when `Author Id` values in the author table are unique, the
left join emits every article row exactly once — its projection back to
the article columns is the article table itself — so the output row count
equals the article row count. -/
theorem leftJoin_rowcount (articles : List ArticleRow)
    (authors : List AuthorRow)
    (h : (authors.map (fun au => au.authorId)).Nodup) :
    (leftJoin articles authors).map
        (fun j => (⟨j.title, j.date, j.authorId, j.readsCount⟩ : ArticleRow))
        = articles ∧
      (leftJoin articles authors).length = articles.length := by
  induction articles with
  | nil => exact ⟨rfl, rfl⟩
  | cons a as ih =>
    obtain ⟨name, hjo⟩ := joinOne_eq_single a authors h
    constructor
    · rw [leftJoin, List.map_append, hjo, ih.1]
      rfl
    · simp [leftJoin, hjo, ih.2]

/-- Witness for C1 on a concrete pair of tables: two articles (one with a
matching author, one dangling), one author; ids are unique and the join
keeps both article rows. -/
theorem leftJoin_rowcount_witness :
    (([⟨some 1, some "Alice"⟩] : List AuthorRow).map
        (fun au => au.authorId)).Nodup ∧
      (leftJoin
          [⟨some "T1", some 100, some 1, some 7⟩,
           ⟨some "T2", some 200, some 2, some 3⟩]
          [⟨some 1, some "Alice"⟩]).length = 2 := by
  refine ⟨by decide, ?_⟩
  exact (leftJoin_rowcount
    [⟨some "T1", some 100, some 1, some 7⟩,
     ⟨some "T2", some 200, some 2, some 3⟩]
    [⟨some 1, some "Alice"⟩] (by decide)).2

/-! ### Filter engine (lines 53–63) -/

/-- The comparison `row["Last Access Date"] >= cutoff` / `row["Date"] >=
cutoff` as pandas evaluates it: `false` on a null (`NaT`) date, otherwise
the ordinary `≥`. -/
def passDate (cutoff : Int) (d : Option Int) : Bool :=
  match d with
  | some x => decide (cutoff ≤ x)
  | none => false

/-- Lines 53–59, `filtered_reader_df`: start from a copy of the reader
table, then conjunctively apply the optional country, industry and
time-window masks.  The sentinel `"All"` skips a mask; pandas equality
against a null cell is `false`, so null countries / industries never match
a concrete filter value. -/
def filtered_reader (readers : List ReaderRow) (countrySel industrySel : String)
    (cutoff : Option Int) : List ReaderRow :=
  let r1 := if countrySel ≠ "All"
    then readers.filter (fun r => r.country == some countrySel) else readers
  let r2 := if industrySel ≠ "All"
    then r1.filter (fun r => r.industry == some industrySel) else r1
  match cutoff with
  | some c => r2.filter (fun r => passDate c r.lastAccess)
  | none => r2

/-- Lines 61–63, `filtered_merged_df`: a copy of the joined table, with the
time-window mask applied when a cutoff is active. -/
def filtered_merged (merged : List JoinedRow) (cutoff : Option Int) :
    List JoinedRow :=
  match cutoff with
  | some c => merged.filter (fun r => passDate c r.date)
  | none => merged

/-- Claim C3: with an active cutoff, a row survives the time-window filter
iff its date is non-null and at least the cutoff; a null-dated row is
always excluded and a row dated exactly at the cutoff is included. -/
theorem filtered_merged_membership (merged : List JoinedRow) (c : Int)
    (r : JoinedRow) :
    (r ∈ filtered_merged merged (some c) ↔
        r ∈ merged ∧ ∃ d, r.date = some d ∧ c ≤ d) ∧
      (r.date = none → r ∉ filtered_merged merged (some c)) ∧
      (r.date = some c → r ∈ merged → r ∈ filtered_merged merged (some c)) := by
  have hmem : r ∈ filtered_merged merged (some c) ↔
      r ∈ merged ∧ ∃ d, r.date = some d ∧ c ≤ d := by
    simp only [filtered_merged, List.mem_filter, and_congr_right_iff]
    intro _
    cases hd : r.date with
    | none => simp [passDate, hd]
    | some x => simp [passDate, hd]
  refine ⟨hmem, ?_, ?_⟩
  · intro hnull hin
    rcases (hmem.mp hin).2 with ⟨d, hd, _⟩
    rw [hnull] at hd
    exact Option.noConfusion hd
  · intro hd hin
    exact hmem.mpr ⟨hin, c, hd, le_refl c⟩

/-- Witness for C3 at a concrete table: with cutoff 5, a row dated exactly
5 is kept and a null-dated row is dropped. -/
theorem filtered_merged_membership_witness :
    (⟨some "T", some 5, some 1, some 3, some "A"⟩ : JoinedRow) ∈
        filtered_merged
          [⟨some "T", some 5, some 1, some 3, some "A"⟩,
           ⟨some "U", none, some 2, some 4, some "B"⟩] (some 5) ∧
      (⟨some "U", none, some 2, some 4, some "B"⟩ : JoinedRow) ∉
        filtered_merged
          [⟨some "T", some 5, some 1, some 3, some "A"⟩,
           ⟨some "U", none, some 2, some 4, some "B"⟩] (some 5) := by
  constructor
  · exact (filtered_merged_membership
      [⟨some "T", some 5, some 1, some 3, some "A"⟩,
       ⟨some "U", none, some 2, some 4, some "B"⟩] 5
      ⟨some "T", some 5, some 1, some 3, some "A"⟩).2.2 rfl (by decide)
  · exact (filtered_merged_membership
      [⟨some "T", some 5, some 1, some 3, some "A"⟩,
       ⟨some "U", none, some 2, some 4, some "B"⟩] 5
      ⟨some "U", none, some 2, some 4, some "B"⟩).2.1 rfl

/-- Claim C6: the reader filters are pure selections — every filtered
result is a sublist of the unchanged base table, the all-pass selection
(`"All"`, `"All"`, no cutoff) returns the base table itself, and
re-filtering the same base with `"All"` after a `"Germany"` filter yields
the original row count. -/
theorem filtered_reader_pure (readers : List ReaderRow) :
    filtered_reader readers "All" "All" none = readers ∧
      (∀ countrySel industrySel cutoff,
        (filtered_reader readers countrySel industrySel cutoff).Sublist
          readers) ∧
      (filtered_reader readers "All" "All" none).length = readers.length := by
  have hall : filtered_reader readers "All" "All" none = readers := by
    simp [filtered_reader]
  refine ⟨hall, ?_, by rw [hall]⟩
  intro countrySel industrySel cutoff
  unfold filtered_reader
  have h1 : (if countrySel ≠ "All"
      then readers.filter (fun r => r.country == some countrySel)
      else readers).Sublist readers := by
    split
    · exact List.filter_sublist readers
    · exact List.Sublist.refl readers
  have h2 : (if industrySel ≠ "All"
      then (if countrySel ≠ "All"
        then readers.filter (fun r => r.country == some countrySel)
        else readers).filter (fun r => r.industry == some industrySel)
      else (if countrySel ≠ "All"
        then readers.filter (fun r => r.country == some countrySel)
        else readers)).Sublist readers := by
    split
    · exact (List.filter_sublist _).trans h1
    · exact h1
  match cutoff with
  | some c => exact (List.filter_sublist _).trans h2
  | none => exact h2

/-- Witness for C6 on a concrete two-row reader table: filtering by
`"Germany"` gives a sublist, and re-filtering the same base table with
`"All"` restores the full row count 2. -/
theorem filtered_reader_pure_witness :
    (filtered_reader
        [⟨some "a@x", some "Germany", some "Law", none, none, some 3, none⟩,
         ⟨some "b@x", some "France", some "Tax", none, none, some 4, none⟩]
        "Germany" "All" none).Sublist
      [⟨some "a@x", some "Germany", some "Law", none, none, some 3, none⟩,
       ⟨some "b@x", some "France", some "Tax", none, none, some 4, none⟩] ∧
    (filtered_reader
        [⟨some "a@x", some "Germany", some "Law", none, none, some 3, none⟩,
         ⟨some "b@x", some "France", some "Tax", none, none, some 4, none⟩]
        "All" "All" none).length = 2 := by
  constructor
  · exact (filtered_reader_pure
      [⟨some "a@x", some "Germany", some "Law", none, none, some 3, none⟩,
       ⟨some "b@x", some "France", some "Tax", none, none, some 4, none⟩]).2.1
      "Germany" "All" none
  · exact (filtered_reader_pure
      [⟨some "a@x", some "Germany", some "Law", none, none, some 3, none⟩,
       ⟨some "b@x", some "France", some "Tax", none, none, some 4, none⟩]).2.2

/-! ### Keyword tokenizer (lines 107–109) -/

/-- The fixed stopword list of line 108. -/
def stopwords : List String :=
  ["the", "and", "for", "with", "from", "this", "that", "will", "how",
   "can", "are"]

/-- Line 107: `Title.dropna().str.lower().str.split().explode()` — drop the
null titles, lower-case, whitespace-split each title and flatten the token
lists.  (pandas `explode` turns an empty token list into a single null
entry; `value_counts` later drops it, so flattening to nothing counts the
same.) -/
def explodeTokens (titles : List (Option String)) : List String :=
  ((titles.filterMap id).map (fun t => splitWs (strLower t))).flatten

/-- Line 108: keep only the tokens outside the stopword list. -/
def clean_keywords (titles : List (Option String)) : List String :=
  (explodeTokens titles).filter (fun t => !(stopwords.contains t))

/-- Line 109 `value_counts`: the frequency of one term among the clean
keywords. -/
def termCount (titles : List (Option String)) (t : String) : Nat :=
  (clean_keywords titles).count t

/-- Claim C7: the tokenizer keeps exactly the flattened lower-cased
whitespace tokens outside the stopword set, and on
`["The Future of ESG Compliance"]` it drops `"the"`, keeps `"of"`, and
counts `future`, `esg`, `compliance`, `of` once each. -/
theorem clean_keywords_spec (titles : List (Option String)) (t : String) :
    (t ∈ clean_keywords titles ↔
        t ∈ explodeTokens titles ∧ t ∉ stopwords) ∧
      termCount [some "The Future of ESG Compliance"] "future" = 1 ∧
      termCount [some "The Future of ESG Compliance"] "esg" = 1 ∧
      termCount [some "The Future of ESG Compliance"] "compliance" = 1 ∧
      termCount [some "The Future of ESG Compliance"] "of" = 1 ∧
      "the" ∉ clean_keywords [some "The Future of ESG Compliance"] := by
  refine ⟨?_, by decide, by decide, by decide, by decide, by decide⟩
  simp [clean_keywords, List.mem_filter]

/-- Claim C8: a null / missing title is treated as the empty string and
classified `"other"`; the classification is total, so it cannot fail. -/
theorem assignTopic_null (t : Option String) (h : t = none) :
    assignTopic t = "other" := by
  subst h
  decide

/-- Witness for C8: the null title classifies as `"other"`. -/
theorem assignTopic_null_witness : assignTopic none = "other" :=
  assignTopic_null none rfl

/-! ### Aggregator: `groupby(...)[...].sum().sort_values(ascending=False).head(n)`
(lines 102 and 123) -/

/-- Null-safe group total: pandas `groupby(key)[val].sum()` sums the
non-null values of the group, a null contributing 0 (an all-null or empty
group sums to 0). -/
def groupSum {α κ : Type} [DecidableEq κ] (rows : List α) (keyFn : α → κ)
    (valFn : α → Option Int) (k : κ) : Int :=
  ((rows.filter (fun r => decide (keyFn r = k))).map
    (fun r => (valFn r).getD 0)).sum

/-- The distinct group keys, first occurrence first.  (pandas `groupby`
additionally sorts the distinct keys ascending; that pass only permutes
groups before the stable descending-by-total sort, i.e. it only picks the
relative order of groups with equal totals, which §4.5 of the spec leaves
unspecified, so the embedding keeps encounter order.) -/
def dedupKeys {κ : Type} [DecidableEq κ] : List κ → List κ
  | [] => []
  | k :: ks => k :: (dedupKeys ks).filter (fun x => decide (x ≠ k))

/-- Descending order on group totals (`sort_values(ascending=False)`). -/
def totalGE {κ : Type} (a b : κ × Int) : Prop :=
  b.2 ≤ a.2

instance totalGE.instDecidable {κ : Type} : DecidableRel (@totalGE κ) :=
  fun a b => inferInstanceAs (Decidable (b.2 ≤ a.2))

instance totalGE.instIsTotal {κ : Type} : IsTotal (κ × Int) totalGE :=
  ⟨fun a b => (le_total b.2 a.2).imp id id⟩

instance totalGE.instIsTrans {κ : Type} : IsTrans (κ × Int) totalGE :=
  ⟨fun _ _ _ h1 h2 => le_trans h2 h1⟩

/-- The generic aggregation of lines 102 / 123: group the rows by key,
total each group null-safely (`groupby` sorts the distinct keys
ascending), sort the `(key, total)` pairs by total descending — the tie
order of `sort_values(ascending=False)` among equal totals is
implementation-defined, see the module docstring; `insertionSort` is one
admissible determinization and no claim constrains that tie order — and
keep the first `n` (`head(n)`). -/
def groupSumTopN {α κ : Type} [DecidableEq κ]
    (rows : List α) (keyFn : α → κ) (valFn : α → Option Int) (n : Nat) :
    List (κ × Int) :=
  let pairs := (dedupKeys (rows.map keyFn)).map
    (fun k => (k, groupSum rows keyFn valFn k))
  (List.insertionSort totalGE pairs).take n

/-- A two-column row for the specified concrete aggregation example. -/
structure KVRow where
  k : String
  v : Option Int
deriving DecidableEq

/-- Claim C4: `groupSumTopN` returns at most `n` pairs, ordered descending
by total, each total being the null-safe sum of its group; on rows
`[(a,10),(b,5),(a,3)]` grouped by `k` summing `v` with `n = 1` it returns
`[("a", 13)]`. -/
theorem groupSumTopN_spec {α κ : Type} [DecidableEq κ]
    (rows : List α) (keyFn : α → κ) (valFn : α → Option Int) (n : Nat) :
    (groupSumTopN rows keyFn valFn n).length ≤ n ∧
      (groupSumTopN rows keyFn valFn n).Pairwise totalGE ∧
      (∀ p ∈ groupSumTopN rows keyFn valFn n,
        p.2 = groupSum rows keyFn valFn p.1) ∧
      groupSumTopN [(⟨"a", some 10⟩ : KVRow), ⟨"b", some 5⟩, ⟨"a", some 3⟩]
          KVRow.k KVRow.v 1 = [("a", 13)] := by
  refine ⟨List.length_take_le n _, ?_, ?_, rfl⟩
  · exact (List.sorted_insertionSort totalGE _).sublist (List.take_sublist _ _)
  · intro p hp
    have hp1 : p ∈ List.insertionSort totalGE
        ((dedupKeys (rows.map keyFn)).map
          (fun k => (k, groupSum rows keyFn valFn k))) :=
      List.mem_of_mem_take hp
    have hp2 := (List.mem_insertionSort totalGE).mp hp1
    rcases List.mem_map.mp hp2 with ⟨k, _, hk⟩
    rw [← hk]

/-- Witness for C4's per-pair total property at the concrete rows: the pair
returned for key `"a"` totals to the null-safe group sum 13. -/
theorem groupSumTopN_spec_witness :
    groupSum [(⟨"a", some 10⟩ : KVRow), ⟨"b", some 5⟩, ⟨"a", some 3⟩]
        KVRow.k KVRow.v "a" = 13 := by
  have hmem : (("a", 13) : String × Int) ∈
      groupSumTopN [(⟨"a", some 10⟩ : KVRow), ⟨"b", some 5⟩, ⟨"a", some 3⟩]
        KVRow.k KVRow.v 1 := by
    rw [show groupSumTopN
        [(⟨"a", some 10⟩ : KVRow), ⟨"b", some 5⟩, ⟨"a", some 3⟩]
        KVRow.k KVRow.v 1 = [("a", 13)] from rfl]
    exact List.mem_singleton_self _
  have h := (groupSumTopN_spec
    [(⟨"a", some 10⟩ : KVRow), ⟨"b", some 5⟩, ⟨"a", some 3⟩]
    KVRow.k KVRow.v 1).2.2.1 ("a", 13) hmem
  exact h.symm

/-! ### Top 5 articles (line 113)

`filtered_merged_df[['Title', 'Author Name', 'Article Reads', 'Date']]
  .sort_values(by='Article Reads', ascending=False).head(5)` -/

/-- The projection `[['Title', 'Author Name', 'Article Reads', 'Date']]`
of line 113. -/
structure ArtProj where
  title : Option String
  authorName : Option String
  readsCount : Option Int
  date : Option Int
deriving DecidableEq

/-- Project a joined row onto the four displayed columns. -/
def projArticle (j : JoinedRow) : ArtProj :=
  ⟨j.title, j.authorName, j.readsCount, j.date⟩

/-- Descending comparison on the `Article Reads` key.  It is only ever
applied to rows with a non-null key (pandas excludes the null block from
the sort), so the `getD 0` default never decides a comparison. -/
def readsGE (a b : ArtProj) : Prop :=
  b.readsCount.getD 0 ≤ a.readsCount.getD 0

instance readsGE.instDecidable : DecidableRel readsGE :=
  fun a b => inferInstanceAs (Decidable (b.readsCount.getD 0 ≤ a.readsCount.getD 0))

instance readsGE.instIsTotal : IsTotal ArtProj readsGE :=
  ⟨fun a b => (le_total (b.readsCount.getD 0) (a.readsCount.getD 0)).imp id id⟩

instance readsGE.instIsTrans : IsTrans ArtProj readsGE :=
  ⟨fun _ _ _ h1 h2 => le_trans h2 h1⟩

/-- `sort_values(by='Article Reads', ascending=False)` as pandas `nargsort`
computes it: the null-keyed rows are set aside, the non-null block is
argsorted descending by reads, and the null block is appended in input
order (`na_position='last'`).  The program's default `kind='quicksort'`
(numpy introsort) leaves the order among equal reads implementation-defined
— it is unstable once a partition exceeds the ≤ 16-element insertion-sort
base case — so `List.insertionSort` here is one admissible determinization
of the non-null block: only properties invariant under permuting
equal-reads rows, and evaluations of inputs inside the insertion-sort
regime, are asserted of the program (see C10 and the C5 entry). -/
def sortByReadsDesc (rows : List ArtProj) : List ArtProj :=
  List.insertionSort readsGE (rows.filter (fun r => r.readsCount.isSome)) ++
    rows.filter (fun r => r.readsCount.isNone)

/-- Line 113, `top_articles`: project, sort descending by reads, `head(5)`. -/
def top_articles (merged : List JoinedRow) : List ArtProj :=
  (sortByReadsDesc (merged.map projArticle)).take 5

/-- The ordering the displayed list obeys: a null-reads row never precedes
a non-null one, and non-null reads are non-increasing. -/
def afterOK (a b : ArtProj) : Prop :=
  match b.readsCount with
  | none => True
  | some y =>
    match a.readsCount with
    | none => False
    | some x => y ≤ x

/-- Concrete three-article tables for the tie examples: two articles with
50 reads (in this input order) and one with 10. -/
def exJ0 : JoinedRow := ⟨some "A", some 1, some 1, some 50, some "X"⟩

/-- Second 50-read article of the tie example. -/
def exJ1 : JoinedRow := ⟨some "B", some 2, some 1, some 50, some "X"⟩

/-- The 10-read article of the tie example. -/
def exJ2 : JoinedRow := ⟨some "C", some 3, some 2, some 10, some "Y"⟩

instance afterOK.instDecidable : DecidableRel afterOK :=
  fun a b =>
    match hb : b.readsCount with
    | none => isTrue (by simp [afterOK, hb])
    | some y =>
      match ha : a.readsCount with
      | none => isFalse (by simp [afterOK, hb, ha])
      | some x =>
        if h : y ≤ x then isTrue (by simp [afterOK, hb, ha, h])
        else isFalse (by simp [afterOK, hb, ha, h])

/-- Claim C5, code-bug evidence: the only ordering constraint the default
`kind='quicksort'` sort of line 113 guarantees — reads descending, nulls
last — does not determine the order of tied rows: the input order and the
swapped order of the two tied 50-read projected rows are distinct
descending (`afterOK`) arrangements of the same rows.  The claim's tie
preservation therefore holds only where numpy introsort happens to run its
stable ≤ 16-element insertion-sort base case, not for every table as the
claim (and spec §4.5) state. -/
theorem top_articles_tie_order_unforced :
    ([projArticle exJ0, projArticle exJ1, projArticle exJ2]).Pairwise
        afterOK ∧
      ([projArticle exJ1, projArticle exJ0, projArticle exJ2]).Pairwise
        afterOK ∧
      ([projArticle exJ1, projArticle exJ0, projArticle exJ2]).Perm
        [projArticle exJ0, projArticle exJ1, projArticle exJ2] ∧
      [projArticle exJ1, projArticle exJ0, projArticle exJ2] ≠
        [projArticle exJ0, projArticle exJ1, projArticle exJ2] := by
  exact ⟨by decide, by decide, List.Perm.swap _ _ _, by decide⟩

/-- Claim C10: in `top_articles` every null-reads row sits after all
non-null ones (the output splits into a non-null block followed by a null
block), so a null-reads row reaches the top 5 only when the input has
fewer than 5 non-null reads values. -/
theorem top_articles_nulls_last (merged : List JoinedRow) :
    (∃ xs ys, top_articles merged = xs ++ ys ∧
        (∀ r ∈ xs, r.readsCount.isSome = true) ∧
        (∀ r ∈ ys, r.readsCount = none)) ∧
      ((∃ r ∈ top_articles merged, r.readsCount = none) →
        ((merged.map projArticle).filter
          (fun r => r.readsCount.isSome)).length < 5) := by
  set rows := merged.map projArticle with hrows
  set s := List.insertionSort readsGE
    (rows.filter (fun r => r.readsCount.isSome)) with hs
  set nl := rows.filter (fun r => r.readsCount.isNone) with hnl
  have htop : top_articles merged = s.take 5 ++ nl.take (5 - s.length) := by
    unfold top_articles sortByReadsDesc
    rw [List.take_append_eq_append_take]
  have hxs : ∀ r ∈ s.take 5, r.readsCount.isSome = true := by
    intro r hr
    have hrs : r ∈ s := List.mem_of_mem_take hr
    rw [hs] at hrs
    exact (List.mem_filter.mp ((List.mem_insertionSort readsGE).mp hrs)).2
  have hys : ∀ r ∈ nl.take (5 - s.length), r.readsCount = none := by
    intro r hr
    have hrs : r ∈ nl := List.mem_of_mem_take hr
    rw [hnl] at hrs
    simpa [Option.isNone_iff_eq_none] using (List.mem_filter.mp hrs).2
  refine ⟨⟨s.take 5, nl.take (5 - s.length), htop, hxs, hys⟩, ?_⟩
  rintro ⟨r, hr, hrnone⟩
  by_contra hlen
  push_neg at hlen
  have hslen : s.length = (rows.filter
      (fun r => r.readsCount.isSome)).length := by
    rw [hs]
    exact (List.perm_insertionSort readsGE _).length_eq
  have h5 : 5 ≤ s.length := by
    rw [hslen]
    exact hlen
  have hnil : nl.take (5 - s.length) = [] := by
    rw [Nat.sub_eq_zero_of_le h5, List.take_zero]
  rw [htop, hnil, List.append_nil] at hr
  have := hxs r hr
  rw [hrnone] at this
  simp at this

/-- Witness for C10 on a concrete table with a null-reads article: the
null row reaches the top 5, so the non-null rows number fewer than 5. -/
theorem top_articles_nulls_last_witness :
    ((([exJ0, ⟨some "D", some 4, some 3, none, some "Z"⟩, exJ2] :
        List JoinedRow).map projArticle).filter
      (fun r => r.readsCount.isSome)).length < 5 := by
  refine (top_articles_nulls_last
    [exJ0, ⟨some "D", some 4, some 3, none, some "Z"⟩, exJ2]).2 ?_
  refine ⟨projArticle ⟨some "D", some 4, some 3, none, some "Z"⟩, ?_, rfl⟩
  rw [show top_articles [exJ0, ⟨some "D", some 4, some 3, none, some "Z"⟩, exJ2]
    = [projArticle exJ0, projArticle exJ2,
       projArticle ⟨some "D", some 4, some 3, none, some "Z"⟩] from rfl]
  exact List.mem_cons_of_mem _ (List.mem_cons_of_mem _ (List.mem_cons_self _ _))

/-! ### Load step and full pipeline (C9) -/

/-- Line 102, `top_topics`: tag every filtered row with its topic
(line 101, `fillna('')` then `match_topic`) and aggregate reads by topic,
top 5. -/
def top_topics (fm : List JoinedRow) : List (String × Int) :=
  groupSumTopN fm (fun r => assignTopic r.title) (fun r => r.readsCount) 5

/-- Line 123, `top_authors`: aggregate reads by author name, top 10.
(pandas `groupby` drops null group keys, `dropna=True` by default, so the
unmatched-join rows with null `Author Name` are excluded first.) -/
def top_authors (fm : List JoinedRow) : List (String × Int) :=
  groupSumTopN (fm.filter (fun r => r.authorName.isSome))
    (fun r => r.authorName.getD "") (fun r => r.readsCount) 10

/-- The environment `load_data` reads: the three CSV sources, here already
row-typed (header trimming and `to_datetime(errors='coerce')` parsing of
the raw text are the steps that produce these fields and are not themselves
modelled; their outputs are).  Threading this state through the pipeline
makes any write observable as a changed `World`. -/
structure World where
  readerSource : List ReaderRow
  articleSource : List ArticleRow
  authorSource : List AuthorRow
deriving DecidableEq

/-- Lines 17–33, `load_data`: read the three tables and build `merged_df`
by the left join.  The function only reads the world, so it returns it
unchanged. -/
def load_data (w : World) :
    (List ReaderRow × List ArticleRow × List AuthorRow × List JoinedRow)
      × World :=
  ((w.readerSource, w.articleSource, w.authorSource,
    leftJoin w.articleSource w.authorSource), w)

/-- A sidebar filter selection: country, industry and the optional time
cutoff computed from the chosen window. -/
structure Selection where
  countrySel : String
  industrySel : String
  cutoff : Option Int
deriving DecidableEq

/-- One full render pass at a fixed selection: load, filter both tables,
derive and aggregate everything the page shows, and return the outputs
together with the world the pass leaves behind. -/
def pipeline (w : World) (sel : Selection) :
    (List ReaderRow × List JoinedRow × List (String × Int) ×
        List ArtProj × List (String × Int)) × World :=
  let loaded := load_data w
  let fr := filtered_reader loaded.1.1 sel.countrySel sel.industrySel
    sel.cutoff
  let fm := filtered_merged loaded.1.2.2.2 sel.cutoff
  ((fr, fm, top_topics fm, top_articles fm, top_authors fm), loaded.2)

/-- Claim C9: loading reads the world without changing it, and running the
whole pipeline twice from the same sources with the same selection —
the second run starting from the world the first run left behind — yields
identical outputs. -/
theorem pipeline_deterministic (w : World) (sel : Selection) :
    (load_data w).2 = w ∧
      (pipeline w sel).2 = w ∧
      (pipeline ((pipeline w sel).2) sel).1 = (pipeline w sel).1 := by
  exact ⟨rfl, rfl, rfl⟩

end Mondaq
